import Mathlib

/-
Shallow embedding of the cgmanager cgroup backend (src/lxc/cgmanager.c).

C strings (char buffers) are embedded as `List Char`.  The external cgroup
manager daemon is embedded as explicit state: a set of (controller index,
cgroup path) pairs that currently exist, together with a trace of the RPC
calls issued to it.  Controllers are identified by their index in the
global `subsystems` array (operations always address `subsystems[i]`).
Fallible RPCs take their outcome from an environment parameter so that
theorems can quantify over daemon behaviour.
-/

namespace Cgmanager

/-- C `char *` strings, embedded as lists of characters. -/
abbrev CStr := List Char

/-- `struct cgm_data` (cgmanager.c:66): the per-container handle.  The
`cgroup_path` field is NULL until `cgm_create` succeeds, embedded as
`Option`. -/
structure CgmData where
  name : CStr
  cgroup_path : Option CStr
  cgroup_pattern : CStr
deriving DecidableEq

/-- RPC calls observable at the daemon: create-cgroup and (recursive)
remove-cgroup, addressed to `subsystems[ctrl]` for a path. -/
inductive Event where
  | createCall (ctrl : Nat) (path : CStr)
  | removeCall (ctrl : Nat) (path : CStr)
deriving DecidableEq

/-- Daemon-side state: which (controller, path) cgroups exist, plus the
trace of create/remove RPCs issued so far. -/
structure DState where
  existing : List (Nat × CStr)
  trace : List Event
deriving DecidableEq

/-- Result of the `cgmanager_create_sync` RPC: a hard failure, or success
with the daemon's "already existed" flag. -/
inductive RpcResult where
  | fail
  | ok (existed : Bool)
deriving DecidableEq

/-- `lxc_cgmanager_create` (cgmanager.c:220): issue the create RPC for one
controller.  `fails` is the environment of hard RPC failures.  On success
the daemon reports whether the cgroup already existed and creates it if
not. -/
def lxc_cgmanager_create (fails : Nat → CStr → Bool) (ctrl : Nat) (path : CStr)
    (s : DState) : RpcResult × DState :=
  if fails ctrl path then
    (RpcResult.fail, { s with trace := s.trace ++ [Event.createCall ctrl path] })
  else
    let existed := decide ((ctrl, path) ∈ s.existing)
    (RpcResult.ok existed,
     { existing := if existed then s.existing else (ctrl, path) :: s.existing,
       trace := s.trace ++ [Event.createCall ctrl path] })

/-- `cgm_remove_cgroup` (cgmanager.c:403): issue the recursive remove RPC
for one controller; a failing RPC (per the `rOk` environment) and a
"did not exist" outcome are only logged, never propagated — the function
returns no status, so its whole effect is the daemon-state change and the
trace entry. -/
def cgm_remove_cgroup (rOk : Nat → CStr → Bool) (ctrl : Nat) (path : CStr)
    (s : DState) : DState :=
  if rOk ctrl path then
    { existing := s.existing.filter (fun cp => !(cp = (ctrl, path) : Bool)),
      trace := s.trace ++ [Event.removeCall ctrl path] }
  else
    { s with trace := s.trace ++ [Event.removeCall ctrl path] }

/-- The `for (i = 0; i < nr_subsystems; i++) cgm_remove_cgroup(...)` loop
shared by `cleanup_cgroups` (cgmanager.c:482) and `cgm_destroy`
(cgmanager.c:468), over an explicit list of controller indices. -/
def remove_all (rOk : Nat → CStr → Bool) (path : CStr) :
    List Nat → DState → DState
  | [], s => s
  | c :: cs, s => remove_all rOk path cs (cgm_remove_cgroup rOk c path s)

/-- `cleanup_cgroups` (cgmanager.c:482): remove `path` from every
registered subsystem. -/
def cleanup_cgroups (rOk : Nat → CStr → Bool) (nr : Nat) (path : CStr)
    (s : DState) : DState :=
  remove_all rOk path (List.range nr) s

/-- Outcome of the per-candidate subsystem loop inside `cgm_create`
(cgmanager.c:527): all controllers created fresh, a collision
(`existed == 1`), or a hard RPC failure. -/
inductive AttemptOutcome where
  | success
  | collision
  | hardfail
deriving DecidableEq

/-- The `for (i = 0; i < nr_subsystems; i++)` body of `cgm_create`
(cgmanager.c:527-535): create the candidate path on each controller in
order; stop at the first hard failure or at the first controller that
reports the path already existed. -/
def create_loop (fails : Nat → CStr → Bool) (path : CStr) :
    List Nat → DState → AttemptOutcome × DState
  | [], s => (AttemptOutcome.success, s)
  | c :: cs, s =>
    match lxc_cgmanager_create fails c path s with
    | (RpcResult.fail, s1) => (AttemptOutcome.hardfail, s1)
    | (RpcResult.ok true, s1) => (AttemptOutcome.collision, s1)
    | (RpcResult.ok false, s1) => create_loop fails path cs s1

/-- `MAXPATHLEN` from sys/param.h. -/
def MAXPATHLEN : Nat := 4096

/-- The candidate path tried at retry `index` (cgmanager.c:521-525): the
slash-stripped expanded pattern, with `-%d` appended for `index > 0`. -/
def candPath (tmp : CStr) (index : Nat) : CStr :=
  if index = 0 then tmp else tmp ++ '-' :: Nat.toDigits 10 index

/-- The `again:` retry loop of `cgm_create` (cgmanager.c:516-552).
`baselen` is `strlen(result)` (the expanded pattern including any leading
slashes), used for the `snprintf` bound check; `tmp` is the
slash-stripped pattern the daemon sees.  The loop counter is split into
the running `index` and the remaining attempts `fuel`, entered with
`index = 0, fuel = 100`, so `fuel = 0` is exactly the `index == 100`
bail-out. -/
def create_from (fails rOk : Nat → CStr → Bool) (nr baselen : Nat) (tmp : CStr) :
    Nat → Nat → DState → Option CStr × DState
  | _, 0, s => (none, s)
  | index, fuel+1, s =>
    if index ≠ 0 ∧ MAXPATHLEN - baselen ≤ ('-' :: Nat.toDigits 10 index).length then
      (none, s)
    else
      let path := candPath tmp index
      match create_loop fails path (List.range nr) s with
      | (AttemptOutcome.success, s1) => (some path, s1)
      | (AttemptOutcome.collision, s1) =>
          create_from fails rOk nr baselen tmp (index+1) fuel
            (cleanup_cgroups rOk nr path s1)
      | (AttemptOutcome.hardfail, s1) => (none, cleanup_cgroups rOk nr path s1)

/-- `lxc_string_replace` (utils.c, used at cgmanager.c:503): replace every
(non-overlapping, left-to-right) occurrence of `needle` in `s` by `repl`.
Structurally fuelled scanner; one unit of fuel is spent per consumed
character position, so `fuel = s.length` always suffices for a non-empty
needle. -/
def replaceAux (needle repl : CStr) : Nat → CStr → CStr
  | 0, s => s
  | _, [] => []
  | fuel+1, c :: rest =>
    if needle.isPrefixOf (c :: rest) then
      repl ++ replaceAux needle repl fuel (List.drop needle.length (c :: rest))
    else
      c :: replaceAux needle repl fuel rest

/-- `lxc_string_replace("%n", name, pattern)` specialised as in
`cgm_create`. -/
def lxc_string_replace (needle repl s : CStr) : CStr :=
  replaceAux needle repl s.length s

/-- `cgm_create` (cgmanager.c:489): expand the configured pattern,
bail out on overlong names, then run the collision-retry loop.  Returns
the value stored into `d->cgroup_path` (`none` = the function returned
false with the path still unset) together with the final daemon state. -/
def cgm_create (fails rOk : Nat → CStr → Bool) (nr : Nat) (d : Option CgmData)
    (s : DState) : Option CStr × DState :=
  match d with
  | none => (none, s)
  | some dd =>
    let expanded := lxc_string_replace ['%', 'n'] dd.name dd.cgroup_pattern
    if MAXPATHLEN ≤ expanded.length then (none, s)
    else
      create_from fails rOk nr expanded.length
        (expanded.dropWhile (fun c => c = '/')) 0 100 s

/-! ### Basic lemmas about the create/remove primitives -/

theorem lxc_cgmanager_create_fail {fails : Nat → CStr → Bool} {ctrl : Nat}
    {path : CStr} {s : DState} (hf : fails ctrl path = true) :
    lxc_cgmanager_create fails ctrl path s =
      (RpcResult.fail, { s with trace := s.trace ++ [Event.createCall ctrl path] }) := by
  simp [lxc_cgmanager_create, hf]

theorem lxc_cgmanager_create_existed {fails : Nat → CStr → Bool} {ctrl : Nat}
    {path : CStr} {s : DState} (hf : fails ctrl path = false)
    (h : (ctrl, path) ∈ s.existing) :
    lxc_cgmanager_create fails ctrl path s =
      (RpcResult.ok true,
       { s with trace := s.trace ++ [Event.createCall ctrl path] }) := by
  simp [lxc_cgmanager_create, hf, h]

theorem lxc_cgmanager_create_fresh {fails : Nat → CStr → Bool} {ctrl : Nat}
    {path : CStr} {s : DState} (hf : fails ctrl path = false)
    (h : (ctrl, path) ∉ s.existing) :
    lxc_cgmanager_create fails ctrl path s =
      (RpcResult.ok false,
       ⟨(ctrl, path) :: s.existing, s.trace ++ [Event.createCall ctrl path]⟩) := by
  simp [lxc_cgmanager_create, hf, h]

theorem cgm_remove_cgroup_trace (rOk : Nat → CStr → Bool) (ctrl : Nat)
    (path : CStr) (s : DState) :
    (cgm_remove_cgroup rOk ctrl path s).trace =
      s.trace ++ [Event.removeCall ctrl path] := by
  unfold cgm_remove_cgroup
  split <;> rfl

theorem remove_all_trace (rOk : Nat → CStr → Bool) (path : CStr) :
    ∀ (l : List Nat) (s : DState),
      (remove_all rOk path l s).trace =
        s.trace ++ l.map (fun c => Event.removeCall c path) := by
  intro l
  induction l with
  | nil => intro s; simp [remove_all]
  | cons c cs ih =>
    intro s
    simp [remove_all, ih, cgm_remove_cgroup_trace]

theorem cgm_remove_cgroup_existing_subset {rOk : Nat → CStr → Bool} {ctrl : Nat}
    {path : CStr} {s : DState} {x : Nat × CStr}
    (hx : x ∈ (cgm_remove_cgroup rOk ctrl path s).existing) : x ∈ s.existing := by
  unfold cgm_remove_cgroup at hx
  split at hx
  · exact (List.mem_filter.mp hx).1
  · exact hx

theorem cgm_remove_cgroup_existing_keep {rOk : Nat → CStr → Bool} {ctrl : Nat}
    {path : CStr} {s : DState} {x : Nat × CStr}
    (hx : x ∈ s.existing) (hne : x.2 ≠ path) :
    x ∈ (cgm_remove_cgroup rOk ctrl path s).existing := by
  unfold cgm_remove_cgroup
  split
  · refine List.mem_filter.mpr ⟨hx, ?_⟩
    simp only [Bool.not_eq_true', decide_eq_false_iff_not]
    intro h
    exact hne (by rw [h])
  · exact hx

theorem remove_all_existing_subset {rOk : Nat → CStr → Bool} {path : CStr} :
    ∀ {l : List Nat} {s : DState} {x : Nat × CStr},
      x ∈ (remove_all rOk path l s).existing → x ∈ s.existing := by
  intro l
  induction l with
  | nil => intro s x hx; exact hx
  | cons c cs ih =>
    intro s x hx
    exact cgm_remove_cgroup_existing_subset (ih hx)

theorem remove_all_existing_keep {rOk : Nat → CStr → Bool} {path : CStr} :
    ∀ {l : List Nat} {s : DState} {x : Nat × CStr},
      x ∈ s.existing → x.2 ≠ path → x ∈ (remove_all rOk path l s).existing := by
  intro l
  induction l with
  | nil => intro s x hx _; exact hx
  | cons c cs ih =>
    intro s x hx hne
    exact ih (cgm_remove_cgroup_existing_keep hx hne) hne

/-! ### Lemmas about the per-candidate create loop -/

theorem create_loop_fresh_head {fails : Nat → CStr → Bool} {path : CStr}
    {c : Nat} {cs : List Nat} {s : DState}
    (hf : fails c path = false) (h : (c, path) ∉ s.existing) :
    create_loop fails path (c :: cs) s =
      create_loop fails path cs
        ⟨(c, path) :: s.existing, s.trace ++ [Event.createCall c path]⟩ := by
  simp [create_loop, lxc_cgmanager_create_fresh hf h]

theorem create_loop_collision_head {fails : Nat → CStr → Bool} {path : CStr}
    {c : Nat} {cs : List Nat} {s : DState}
    (hf : fails c path = false) (h : (c, path) ∈ s.existing) :
    create_loop fails path (c :: cs) s =
      (AttemptOutcome.collision,
       { s with trace := s.trace ++ [Event.createCall c path] }) := by
  simp [create_loop, lxc_cgmanager_create_existed hf h]

theorem create_loop_hardfail_head {fails : Nat → CStr → Bool} {path : CStr}
    {c : Nat} {cs : List Nat} {s : DState} (hf : fails c path = true) :
    create_loop fails path (c :: cs) s =
      (AttemptOutcome.hardfail,
       { s with trace := s.trace ++ [Event.createCall c path] }) := by
  simp [create_loop, lxc_cgmanager_create_fail hf]

theorem create_loop_ok_run {fails : Nat → CStr → Bool} {path : CStr} :
    ∀ (l : List Nat) (rest : List Nat) (s : DState), l.Nodup →
      (∀ c ∈ l, fails c path = false) →
      (∀ c ∈ l, (c, path) ∉ s.existing) →
      create_loop fails path (l ++ rest) s =
        create_loop fails path rest
          ⟨(l.map (fun c => (c, path))).reverse ++ s.existing,
           s.trace ++ l.map (fun c => Event.createCall c path)⟩ := by
  intro l
  induction l with
  | nil => intro rest s _ _ _; simp
  | cons c cs ih =>
    intro rest s hnd hf hfree
    have hfree' : ∀ c' ∈ cs,
        (c', path) ∉ ((c, path) :: s.existing : List (Nat × CStr)) := by
      intro c' hc' hmem
      rcases List.mem_cons.mp hmem with heq | hmem'
      · have hcc : c' = c := congrArg Prod.fst heq
        exact (List.nodup_cons.mp hnd).1 (hcc ▸ hc')
      · exact hfree c' (List.mem_cons_of_mem c hc') hmem'
    rw [List.cons_append,
      create_loop_fresh_head (hf c (List.mem_cons_self c cs))
        (hfree c (List.mem_cons_self c cs)),
      ih rest _ (List.Nodup.of_cons hnd)
        (fun c' hc' => hf c' (List.mem_cons_of_mem c hc')) hfree']
    simp

theorem create_loop_trace_mono {fails : Nat → CStr → Bool} {path : CStr} :
    ∀ (l : List Nat) (s : DState),
      ∃ t, (create_loop fails path l s).2.trace = s.trace ++ t := by
  intro l
  induction l with
  | nil => intro s; exact ⟨[], by simp [create_loop]⟩
  | cons c cs ih =>
    intro s
    by_cases hf : fails c path = true
    · rw [create_loop_hardfail_head hf]
      exact ⟨[Event.createCall c path], rfl⟩
    · have hf' : fails c path = false := by simpa using hf
      by_cases h : (c, path) ∈ s.existing
      · rw [create_loop_collision_head hf' h]
        exact ⟨[Event.createCall c path], rfl⟩
      · rw [create_loop_fresh_head hf' h]
        obtain ⟨t, ht⟩ :=
          ih ⟨(c, path) :: s.existing, s.trace ++ [Event.createCall c path]⟩
        exact ⟨Event.createCall c path :: t, by rw [ht]; simp⟩

/-! ### Step lemmas for the retry loop -/

theorem create_from_zero {fails rOk : Nat → CStr → Bool}
    {nr baselen : Nat} {tmp : CStr} {index : Nat} {s : DState} :
    create_from fails rOk nr baselen tmp index 0 s = (none, s) := rfl

theorem create_from_succ {fails rOk : Nat → CStr → Bool}
    {nr baselen : Nat} {tmp : CStr} {index fuel : Nat} {s : DState} :
    create_from fails rOk nr baselen tmp index (fuel+1) s =
      if index ≠ 0 ∧ MAXPATHLEN - baselen ≤ ('-' :: Nat.toDigits 10 index).length
      then (none, s)
      else
        match create_loop fails (candPath tmp index) (List.range nr) s with
        | (AttemptOutcome.success, s1) => (some (candPath tmp index), s1)
        | (AttemptOutcome.collision, s1) =>
            create_from fails rOk nr baselen tmp (index+1) fuel
              (cleanup_cgroups rOk nr (candPath tmp index) s1)
        | (AttemptOutcome.hardfail, s1) =>
            (none, cleanup_cgroups rOk nr (candPath tmp index) s1) := rfl

theorem create_from_step_guard {fails rOk : Nat → CStr → Bool}
    {nr baselen : Nat} {tmp : CStr} {index fuel : Nat} {s : DState}
    (hguard : index ≠ 0 ∧
      MAXPATHLEN - baselen ≤ ('-' :: Nat.toDigits 10 index).length) :
    create_from fails rOk nr baselen tmp index (fuel+1) s = (none, s) := by
  rw [create_from_succ, if_pos hguard]

theorem create_from_step_success {fails rOk : Nat → CStr → Bool}
    {nr baselen : Nat} {tmp : CStr} {index fuel : Nat} {s s1 : DState}
    (hguard : ¬(index ≠ 0 ∧
      MAXPATHLEN - baselen ≤ ('-' :: Nat.toDigits 10 index).length))
    (h : create_loop fails (candPath tmp index) (List.range nr) s =
      (AttemptOutcome.success, s1)) :
    create_from fails rOk nr baselen tmp index (fuel+1) s =
      (some (candPath tmp index), s1) := by
  rw [create_from_succ, if_neg hguard, h]

theorem create_from_step_collision {fails rOk : Nat → CStr → Bool}
    {nr baselen : Nat} {tmp : CStr} {index fuel : Nat} {s s1 : DState}
    (hguard : ¬(index ≠ 0 ∧
      MAXPATHLEN - baselen ≤ ('-' :: Nat.toDigits 10 index).length))
    (h : create_loop fails (candPath tmp index) (List.range nr) s =
      (AttemptOutcome.collision, s1)) :
    create_from fails rOk nr baselen tmp index (fuel+1) s =
      create_from fails rOk nr baselen tmp (index+1) fuel
        (cleanup_cgroups rOk nr (candPath tmp index) s1) := by
  rw [create_from_succ, if_neg hguard, h]

theorem create_from_step_hardfail {fails rOk : Nat → CStr → Bool}
    {nr baselen : Nat} {tmp : CStr} {index fuel : Nat} {s s1 : DState}
    (hguard : ¬(index ≠ 0 ∧
      MAXPATHLEN - baselen ≤ ('-' :: Nat.toDigits 10 index).length))
    (h : create_loop fails (candPath tmp index) (List.range nr) s =
      (AttemptOutcome.hardfail, s1)) :
    create_from fails rOk nr baselen tmp index (fuel+1) s =
      (none, cleanup_cgroups rOk nr (candPath tmp index) s1) := by
  rw [create_from_succ, if_neg hguard, h]

theorem create_from_trace_mono {fails rOk : Nat → CStr → Bool}
    {nr baselen : Nat} {tmp : CStr} :
    ∀ (fuel index : Nat) (s : DState),
      ∃ t, (create_from fails rOk nr baselen tmp index fuel s).2.trace =
        s.trace ++ t := by
  intro fuel
  induction fuel with
  | zero => intro index s; exact ⟨[], by simp [create_from_zero]⟩
  | succ fuel ih =>
    intro index s
    by_cases hguard : index ≠ 0 ∧
        MAXPATHLEN - baselen ≤ ('-' :: Nat.toDigits 10 index).length
    · rw [create_from_step_guard hguard]
      exact ⟨[], by simp⟩
    · rcases hcl : create_loop fails (candPath tmp index) (List.range nr) s
        with ⟨o, s1⟩
      obtain ⟨t1, ht1⟩ :=
        @create_loop_trace_mono fails (candPath tmp index) (List.range nr) s
      rw [hcl] at ht1
      have ht1' : s1.trace = s.trace ++ t1 := ht1
      cases o with
      | success =>
        rw [create_from_step_success hguard hcl]
        exact ⟨t1, ht1'⟩
      | collision =>
        rw [create_from_step_collision hguard hcl]
        obtain ⟨t2, ht2⟩ :=
          ih (index+1) (cleanup_cgroups rOk nr (candPath tmp index) s1)
        refine ⟨t1 ++ (List.range nr).map
            (fun c => Event.removeCall c (candPath tmp index)) ++ t2, ?_⟩
        rw [ht2, cleanup_cgroups, remove_all_trace, ht1']
        simp
      | hardfail =>
        rw [create_from_step_hardfail hguard hcl]
        refine ⟨t1 ++ (List.range nr).map
            (fun c => Event.removeCall c (candPath tmp index)), ?_⟩
        show (cleanup_cgroups rOk nr (candPath tmp index) s1).trace = _
        rw [cleanup_cgroups, remove_all_trace, ht1']
        simp

/-! ### Distinctness of candidate paths and digit-length bounds -/

set_option maxRecDepth 10000 in
theorem toDigits_inj_le_100 :
    ∀ a, a ≤ 100 → ∀ b, b ≤ 100 →
      Nat.toDigits 10 a = Nat.toDigits 10 b → a = b := by
  decide

theorem toDigits_len_lt_100 : ∀ i, i < 100 → (Nat.toDigits 10 i).length ≤ 2 := by
  decide

theorem candPath_ne (tmp : CStr) {k i : Nat} (hki : k < i) (hi : i ≤ 100) :
    candPath tmp k ≠ candPath tmp i := by
  intro heq
  have hipos : 0 < i := Nat.lt_of_le_of_lt (Nat.zero_le k) hki
  have hieq : candPath tmp i = tmp ++ '-' :: Nat.toDigits 10 i := by
    simp [candPath, hipos.ne']
  rcases Nat.eq_zero_or_pos k with hk0 | hkpos
  · subst hk0
    have hkeq : candPath tmp 0 = tmp := by simp [candPath]
    rw [hkeq, hieq] at heq
    have hlen := congrArg List.length heq
    simp only [List.length_append, List.length_cons] at hlen
    omega
  · have hkeq : candPath tmp k = tmp ++ '-' :: Nat.toDigits 10 k := by
      simp [candPath, hkpos.ne']
    rw [hkeq, hieq] at heq
    have h1 := List.append_cancel_left heq
    have h2 := (List.cons.injEq _ _ _ _).mp h1 |>.2
    exact absurd (toDigits_inj_le_100 k (le_of_lt (lt_of_lt_of_le hki hi)) i hi h2)
      (Nat.ne_of_lt hki)

theorem snprintf_guard_false {baselen index : Nat}
    (hb : baselen ≤ MAXPATHLEN - 4) (hi : index < 100) :
    ¬(index ≠ 0 ∧
      MAXPATHLEN - baselen ≤ ('-' :: Nat.toDigits 10 index).length) := by
  rintro ⟨-, hle⟩
  have hd := toDigits_len_lt_100 index hi
  simp only [List.length_cons] at hle
  simp only [MAXPATHLEN] at hb hle
  omega

theorem candPath_zero (tmp : CStr) : candPath tmp 0 = tmp := by
  simp [candPath]

theorem cgm_create_some (fails rOk : Nat → CStr → Bool) (nr : Nat) (dd : CgmData)
    (s : DState)
    (h : ¬ MAXPATHLEN ≤
      (lxc_string_replace ['%', 'n'] dd.name dd.cgroup_pattern).length) :
    cgm_create fails rOk nr (some dd) s =
      create_from fails rOk nr
        (lxc_string_replace ['%', 'n'] dd.name dd.cgroup_pattern).length
        ((lxc_string_replace ['%', 'n'] dd.name dd.cgroup_pattern).dropWhile
          (fun c => c = '/')) 0 100 s := by
  have hred : cgm_create fails rOk nr (some dd) s =
      (if MAXPATHLEN ≤
          (lxc_string_replace ['%', 'n'] dd.name dd.cgroup_pattern).length
       then (none, s)
       else create_from fails rOk nr
          (lxc_string_replace ['%', 'n'] dd.name dd.cgroup_pattern).length
          ((lxc_string_replace ['%', 'n'] dd.name dd.cgroup_pattern).dropWhile
            (fun c => c = '/')) 0 100 s) := rfl
  rw [hred, if_neg h]

/-- Main induction for the success half of the collision-retry claim: from
retry index `k` with `m = n - k` collisions still ahead, the loop lands on
`candPath tmp n` and has issued rollback removes for every collided
candidate. -/
theorem create_from_retries_to_free {rOk : Nat → CStr → Bool}
    {nr baselen n : Nat} {tmp : CStr}
    (hnr : 0 < nr) (hb : baselen ≤ MAXPATHLEN - 4) (hn : n < 100) :
    ∀ (m k : Nat) (s : DState), k + m = n →
      (∀ i, k ≤ i → i < n → (0, candPath tmp i) ∈ s.existing) →
      (∀ c, c < nr → (c, candPath tmp n) ∉ s.existing) →
      (create_from (fun _ _ => false) rOk nr baselen tmp k (100 - k) s).1 =
          some (candPath tmp n) ∧
      (∀ i, k ≤ i → i < n → ∀ c, c < nr →
        Event.removeCall c (candPath tmp i) ∈
          (create_from (fun _ _ => false) rOk nr baselen tmp k (100 - k) s).2.trace) := by
  intro m
  induction m with
  | zero =>
    intro k s hk hcoll hfree
    have hkn : k = n := by omega
    subst hkn
    have hfe : 100 - k = (99 - k) + 1 := by omega
    rw [hfe]
    have hguard := @snprintf_guard_false baselen k hb hn
    have hloop : create_loop (fun _ _ => false) (candPath tmp k)
        (List.range nr) s =
        (AttemptOutcome.success,
         ⟨((List.range nr).map (fun c => (c, candPath tmp k))).reverse ++ s.existing,
          s.trace ++ (List.range nr).map
            (fun c => Event.createCall c (candPath tmp k))⟩) := by
      have h := @create_loop_ok_run (fun _ _ => false)
        (candPath tmp k) (List.range nr) [] s (List.nodup_range nr)
        (fun _ _ => rfl) (fun c hc => hfree c (List.mem_range.mp hc))
      rw [List.append_nil] at h
      rw [h]
      rfl
    rw [create_from_step_success hguard hloop]
    exact ⟨rfl, fun i h1 h2 => absurd (Nat.lt_of_le_of_lt h1 h2) (Nat.lt_irrefl _)⟩
  | succ m ih =>
    intro k s hk hcoll hfree
    have hkn : k < n := by omega
    have hk100 : k < 100 := Nat.lt_trans hkn hn
    have hfe : 100 - k = (100 - (k+1)) + 1 := by omega
    rw [hfe]
    have hguard := @snprintf_guard_false baselen k hb hk100
    obtain ⟨nr', hnr'⟩ := Nat.exists_eq_succ_of_ne_zero hnr.ne'
    have hloop : create_loop (fun _ _ => false) (candPath tmp k)
        (List.range nr) s =
        (AttemptOutcome.collision,
         { s with trace := s.trace ++ [Event.createCall 0 (candPath tmp k)] }) := by
      rw [hnr', List.range_succ_eq_map]
      exact create_loop_collision_head rfl (hcoll k le_rfl hkn)
    rw [create_from_step_collision hguard hloop]
    set s1 : DState :=
      { s with trace := s.trace ++ [Event.createCall 0 (candPath tmp k)] } with hs1
    set s2 : DState := cleanup_cgroups rOk nr (candPath tmp k) s1 with hs2
    have hcoll2 : ∀ i, k+1 ≤ i → i < n → (0, candPath tmp i) ∈ s2.existing := by
      intro i h1 h2
      have hin : (0, candPath tmp i) ∈ s1.existing :=
        hcoll i (Nat.le_of_succ_le h1) h2
      rw [hs2, cleanup_cgroups]
      exact remove_all_existing_keep hin
        (Ne.symm (candPath_ne tmp (Nat.lt_of_succ_le h1)
          (le_of_lt (Nat.lt_of_lt_of_le h2 (le_of_lt hn)))))
    have hfree2 : ∀ c, c < nr → (c, candPath tmp n) ∉ s2.existing := by
      intro c hc hmem
      rw [hs2, cleanup_cgroups] at hmem
      have hsub : (c, candPath tmp n) ∈ s1.existing :=
        remove_all_existing_subset hmem
      exact hfree c hc hsub
    obtain ⟨h1, h2⟩ := ih (k+1) s2 (by omega) hcoll2 hfree2
    refine ⟨h1, ?_⟩
    intro i hki hin c hc
    rcases Nat.eq_or_lt_of_le hki with heq | hlt
    · subst heq
      obtain ⟨t, ht⟩ := @create_from_trace_mono (fun _ _ => false) rOk nr
        baselen tmp (100 - (k+1)) (k+1) s2
      rw [ht]
      have hmem : Event.removeCall c (candPath tmp k) ∈ s2.trace := by
        rw [hs2, cleanup_cgroups, remove_all_trace]
        refine List.mem_append_right _ ?_
        exact List.mem_map.mpr ⟨c, List.mem_range.mpr hc, rfl⟩
      exact List.mem_append_left _ hmem
    · exact h2 i hlt hin c hc

/-- Main induction for the exhaustion half of the collision-retry claim:
if every remaining candidate up to index 100 collides, the loop runs out
of names and fails, having rolled back each attempt. -/
theorem create_from_exhausts {rOk : Nat → CStr → Bool}
    {nr baselen : Nat} {tmp : CStr}
    (hnr : 0 < nr) (hb : baselen ≤ MAXPATHLEN - 4) :
    ∀ (m k : Nat) (s : DState), k + m = 100 →
      (∀ i, k ≤ i → i < 100 → (0, candPath tmp i) ∈ s.existing) →
      (create_from (fun _ _ => false) rOk nr baselen tmp k (100 - k) s).1 =
          none ∧
      (∀ i, k ≤ i → i < 100 → ∀ c, c < nr →
        Event.removeCall c (candPath tmp i) ∈
          (create_from (fun _ _ => false) rOk nr baselen tmp k (100 - k) s).2.trace) := by
  intro m
  induction m with
  | zero =>
    intro k s hk hcoll
    have hkn : k = 100 := by omega
    subst hkn
    rw [Nat.sub_self, create_from_zero]
    exact ⟨rfl, fun i h1 h2 => absurd (Nat.lt_of_le_of_lt h1 h2) (Nat.lt_irrefl _)⟩
  | succ m ih =>
    intro k s hk hcoll
    have hk100 : k < 100 := by omega
    have hfe : 100 - k = (100 - (k+1)) + 1 := by omega
    rw [hfe]
    have hguard := @snprintf_guard_false baselen k hb hk100
    obtain ⟨nr', hnr'⟩ := Nat.exists_eq_succ_of_ne_zero hnr.ne'
    have hloop : create_loop (fun _ _ => false) (candPath tmp k)
        (List.range nr) s =
        (AttemptOutcome.collision,
         { s with trace := s.trace ++ [Event.createCall 0 (candPath tmp k)] }) := by
      rw [hnr', List.range_succ_eq_map]
      exact create_loop_collision_head rfl (hcoll k le_rfl hk100)
    rw [create_from_step_collision hguard hloop]
    set s1 : DState :=
      { s with trace := s.trace ++ [Event.createCall 0 (candPath tmp k)] } with hs1
    set s2 : DState := cleanup_cgroups rOk nr (candPath tmp k) s1 with hs2
    have hcoll2 : ∀ i, k+1 ≤ i → i < 100 → (0, candPath tmp i) ∈ s2.existing := by
      intro i h1 h2
      have hin : (0, candPath tmp i) ∈ s1.existing :=
        hcoll i (Nat.le_of_succ_le h1) h2
      rw [hs2, cleanup_cgroups]
      exact remove_all_existing_keep hin
        (Ne.symm (candPath_ne tmp (Nat.lt_of_succ_le h1) (le_of_lt h2)))
    obtain ⟨h1, h2⟩ := ih (k+1) s2 (by omega) hcoll2
    refine ⟨h1, ?_⟩
    intro i hki hin c hc
    rcases Nat.eq_or_lt_of_le hki with heq | hlt
    · subst heq
      obtain ⟨t, ht⟩ := @create_from_trace_mono (fun _ _ => false) rOk nr
        baselen tmp (100 - (k+1)) (k+1) s2
      rw [ht]
      have hmem : Event.removeCall c (candPath tmp k) ∈ s2.trace := by
        rw [hs2, cleanup_cgroups, remove_all_trace]
        refine List.mem_append_right _ ?_
        exact List.mem_map.mpr ⟨c, List.mem_range.mpr hc, rfl⟩
      exact List.mem_append_left _ hmem
    · exact h2 i hlt hin c hc

/-! ### Claim C1 -/

/-- C1: in `cgm_create`, when a candidate cgroup path collides (a
subsystem reports it already exists), the loop rolls back the candidate
(recursive removes are issued for it), appends the numeric suffix and
retries; if `base, base-1, …, base-(n-1)` already exist, the create
succeeds with the handle's path set to `base-n` whenever `n < 100`, and
`n ≥ 100` (so that index 100 is reached) makes the whole operation fail. -/
theorem cgm_create_collision_retry_c1
    (rOk : Nat → CStr → Bool) (nr n : Nat) (name pattern : CStr) (s : DState)
    (tmp : CStr)
    (htmp : tmp = (lxc_string_replace ['%', 'n'] name pattern).dropWhile
      (fun c => c = '/'))
    (hnr : 0 < nr)
    (hblen : (lxc_string_replace ['%', 'n'] name pattern).length ≤
      MAXPATHLEN - 4)
    (hcoll : ∀ i, i < n → i < 100 → (0, candPath tmp i) ∈ s.existing)
    (hfree : ∀ c, c < nr → (c, candPath tmp n) ∉ s.existing) :
    (n < 100 →
      (cgm_create (fun _ _ => false) rOk nr (some ⟨name, none, pattern⟩) s).1 =
        some (candPath tmp n)) ∧
    (100 ≤ n →
      (cgm_create (fun _ _ => false) rOk nr (some ⟨name, none, pattern⟩) s).1 =
        none) ∧
    (∀ i, i < n → i < 100 → ∀ c, c < nr →
      Event.removeCall c (candPath tmp i) ∈
        (cgm_create (fun _ _ => false) rOk nr
          (some ⟨name, none, pattern⟩) s).2.trace) := by
  have hlt : ¬ MAXPATHLEN ≤ (lxc_string_replace ['%', 'n'] name pattern).length := by
    simp only [MAXPATHLEN] at hblen ⊢
    omega
  have hc := cgm_create_some (fun _ _ => false) rOk nr ⟨name, none, pattern⟩ s hlt
  simp only at hc
  rw [← htmp] at hc
  have h100 : (100 : Nat) - 0 = 100 := rfl
  refine ⟨?_, ?_, ?_⟩
  · intro hn
    obtain ⟨h1, _⟩ := @create_from_retries_to_free rOk nr
      (lxc_string_replace ['%', 'n'] name pattern).length n tmp
      hnr hblen hn n 0 s (by omega)
      (fun i h1 h2 => hcoll i h2 (Nat.lt_trans h2 hn)) hfree
    rw [hc]
    rw [h100] at h1
    exact h1
  · intro hn
    obtain ⟨h1, _⟩ := @create_from_exhausts rOk nr
      (lxc_string_replace ['%', 'n'] name pattern).length tmp
      hnr hblen 100 0 s (by omega)
      (fun i _ h2 => hcoll i (Nat.lt_of_lt_of_le h2 hn) h2)
    rw [hc]
    rw [h100] at h1
    exact h1
  · intro i hin hi100 c hc'
    by_cases hn : n < 100
    · obtain ⟨_, h2⟩ := @create_from_retries_to_free rOk nr
        (lxc_string_replace ['%', 'n'] name pattern).length n tmp
        hnr hblen hn n 0 s (by omega)
        (fun j hj1 hj2 => hcoll j hj2 (Nat.lt_trans hj2 hn)) hfree
      rw [hc]
      have := h2 i (Nat.zero_le i) hin c hc'
      rw [h100] at this
      exact this
    · obtain ⟨_, h2⟩ := @create_from_exhausts rOk nr
        (lxc_string_replace ['%', 'n'] name pattern).length tmp
        hnr hblen 100 0 s (by omega)
        (fun j _ hj2 => hcoll j (by omega) hj2)
      rw [hc]
      have := h2 i (Nat.zero_le i) hi100 c hc'
      rw [h100] at this
      exact this

/-- Witness for C1: two controllers, the base name `c1` taken for
controller 0, so the create lands on `c1-1`; the rollback removes for the
collided candidate appear in the trace. -/
theorem cgm_create_collision_retry_c1_witness :
    (1 < 100 →
      (cgm_create (fun _ _ => false) (fun _ _ => true) 2
        (some ⟨['c', '1'], none, ['%', 'n']⟩)
        ⟨[(0, ['c', '1'])], []⟩).1 = some (candPath ['c', '1'] 1)) ∧
    (100 ≤ 1 →
      (cgm_create (fun _ _ => false) (fun _ _ => true) 2
        (some ⟨['c', '1'], none, ['%', 'n']⟩)
        ⟨[(0, ['c', '1'])], []⟩).1 = none) ∧
    (∀ i, i < 1 → i < 100 → ∀ c, c < 2 →
      Event.removeCall c (candPath ['c', '1'] i) ∈
        (cgm_create (fun _ _ => false) (fun _ _ => true) 2
          (some ⟨['c', '1'], none, ['%', 'n']⟩)
          ⟨[(0, ['c', '1'])], []⟩).2.trace) :=
  cgm_create_collision_retry_c1 (fun _ _ => true) 2 1 ['c', '1'] ['%', 'n']
    ⟨[(0, ['c', '1'])], []⟩ ['c', '1'] (by decide) (by decide) (by decide)
    (by decide) (by decide)

/-! ### Claim C2 -/

/-- C2: if, inside `cgm_create`, the create RPC for subsystem `i`
(1 ≤ i < nr) fails hard after subsystems `0 .. i-1` were created for the
current candidate path, then every one of subsystems `0 .. i-1` receives a
matching recursive remove call for that path before `cgm_create` returns
failure. -/
theorem cgm_create_rollback_c2
    (fails rOk : Nat → CStr → Bool) (nr i : Nat) (name pattern : CStr)
    (s : DState) (tmp : CStr)
    (htmp : tmp = (lxc_string_replace ['%', 'n'] name pattern).dropWhile
      (fun c => c = '/'))
    (hblen : (lxc_string_replace ['%', 'n'] name pattern).length < MAXPATHLEN)
    (hi1 : 1 ≤ i) (hi2 : i < nr)
    (hfail : fails i tmp = true)
    (hok : ∀ c, c < i → fails c tmp = false)
    (hfresh : ∀ c, c < nr → (c, tmp) ∉ s.existing) :
    (cgm_create fails rOk nr (some ⟨name, none, pattern⟩) s).1 = none ∧
    (∀ c, c < i →
      Event.removeCall c tmp ∈
        (cgm_create fails rOk nr (some ⟨name, none, pattern⟩) s).2.trace) := by
  have hlt : ¬ MAXPATHLEN ≤ (lxc_string_replace ['%', 'n'] name pattern).length :=
    Nat.not_le.mpr hblen
  have hc := cgm_create_some fails rOk nr ⟨name, none, pattern⟩ s hlt
  simp only at hc
  rw [← htmp] at hc
  have hguard : ¬((0 : Nat) ≠ 0 ∧
      MAXPATHLEN - (lxc_string_replace ['%', 'n'] name pattern).length ≤
        ('-' :: Nat.toDigits 10 0).length) := by
    rintro ⟨h, -⟩
    exact h rfl
  -- run the loop over controllers 0..i-1, then hit the hard failure at i
  have hsplit : List.range nr =
      List.range i ++ (i :: (List.range (nr - i - 1)).map
        (fun x => i + Nat.succ x)) := by
    have h1 : nr = i + (nr - i) := by omega
    have h2 : nr - i = (nr - i - 1) + 1 := by omega
    conv_lhs => rw [h1, List.range_add]
    rw [h2, List.range_succ_eq_map]
    simp
  have hpref := @create_loop_ok_run fails (candPath tmp 0)
    (List.range i)
    (i :: (List.range (nr - i - 1)).map (fun x => i + Nat.succ x)) s
    (List.nodup_range i)
    (fun c hcm => by rw [candPath_zero]; exact hok c (List.mem_range.mp hcm))
    (fun c hcm => by
      rw [candPath_zero]
      exact hfresh c (Nat.lt_trans (List.mem_range.mp hcm) hi2))
  have hhead := @create_loop_hardfail_head fails (candPath tmp 0) i
    ((List.range (nr - i - 1)).map (fun x => i + Nat.succ x))
    ⟨((List.range i).map (fun c => (c, candPath tmp 0))).reverse ++ s.existing,
     s.trace ++ (List.range i).map
       (fun c => Event.createCall c (candPath tmp 0))⟩
    (by rw [candPath_zero]; exact hfail)
  have hloop : create_loop fails (candPath tmp 0) (List.range nr) s =
      (AttemptOutcome.hardfail,
       ⟨((List.range i).map (fun c => (c, candPath tmp 0))).reverse ++ s.existing,
        (s.trace ++ (List.range i).map
          (fun c => Event.createCall c (candPath tmp 0))) ++
          [Event.createCall i (candPath tmp 0)]⟩) := by
    rw [hsplit, hpref, hhead]
  have hrun : cgm_create fails rOk nr (some ⟨name, none, pattern⟩) s =
      (none, cleanup_cgroups rOk nr (candPath tmp 0)
        ⟨((List.range i).map (fun c => (c, candPath tmp 0))).reverse ++ s.existing,
         (s.trace ++ (List.range i).map
           (fun c => Event.createCall c (candPath tmp 0))) ++
           [Event.createCall i (candPath tmp 0)]⟩) := by
    rw [hc]
    rw [show (100 : Nat) = 99 + 1 from rfl]
    rw [create_from_step_hardfail hguard hloop]
  refine ⟨by rw [hrun], ?_⟩
  intro c hci
  rw [hrun]
  show Event.removeCall c tmp ∈
    (cleanup_cgroups rOk nr (candPath tmp 0) _).trace
  rw [cleanup_cgroups, remove_all_trace]
  refine List.mem_append_right _ ?_
  refine List.mem_map.mpr ⟨c, List.mem_range.mpr (Nat.lt_trans hci hi2), ?_⟩
  rw [candPath_zero]

/-- Witness for C2: three controllers, hard failure at controller 2 after
0 and 1 were created; both receive rollback removes and the create fails. -/
theorem cgm_create_rollback_c2_witness :
    (cgm_create (fun c _ => decide (c = 2)) (fun _ _ => true) 3
      (some ⟨['c', '1'], none, ['%', 'n']⟩) ⟨[], []⟩).1 = none ∧
    (∀ c, c < 2 →
      Event.removeCall c ['c', '1'] ∈
        (cgm_create (fun c _ => decide (c = 2)) (fun _ _ => true) 3
          (some ⟨['c', '1'], none, ['%', 'n']⟩) ⟨[], []⟩).2.trace) :=
  cgm_create_rollback_c2 (fun c _ => decide (c = 2)) (fun _ _ => true) 3 2
    ['c', '1'] ['%', 'n'] ⟨[], []⟩ ['c', '1'] (by decide) (by decide)
    (by decide) (by decide) (by decide) (by decide) (by decide)

/-! ### Subsystem registry: cull_user_controllers (C3) and
collect_subsytems (C8) -/

/-- `strncmp(subsystems[i], "name=", 5) == 0` (cgmanager.c:949): the
controller name starts with the naming marker. -/
def isNamed (s : CStr) : Bool := decide (s.take 5 = ['n', 'a', 'm', 'e', '='])

/-- `cull_user_controllers` (cgmanager.c:944): the in-place removal loop
over the `subsystems` array.  When entry `i` is named, entries `i+1 …` are
shifted left one slot and `nr_subsystems` drops — but the outer index
still advances, so the element that just slid into slot `i` is never
inspected.  That is exactly the recursion below: after removing a named
head, the next element is kept unexamined. -/
def cull_user_controllers : List CStr → List CStr
  | [] => []
  | x :: rest =>
    if isNamed x then
      match rest with
      | [] => []
      | y :: rest2 => y :: cull_user_controllers rest2
    else
      x :: cull_user_controllers rest

/-- Supporting fact: when no two consecutive entries are both named, the
loop does remove every named controller (the skipped slot never holds a
named entry), i.e. it agrees with a plain filter. -/
theorem cull_user_controllers_no_adjacent :
    ∀ l : List CStr,
      l.Chain' (fun a b => isNamed a = false ∨ isNamed b = false) →
      cull_user_controllers l = l.filter (fun s => !(isNamed s)) := by
  intro l
  induction l using cull_user_controllers.induct with
  | case1 => intro _; simp [cull_user_controllers]
  | case2 y hy =>
    intro _
    simp [cull_user_controllers, hy]
  | case3 y hy z rest2 ih =>
    intro hch
    have hz : isNamed z = false := by
      rcases (List.chain'_cons.mp hch).1 with h | h
      · exact absurd h (by simp [hy])
      · exact h
    have hch2 : rest2.Chain' (fun a b => isNamed a = false ∨ isNamed b = false) :=
      ((List.chain'_cons.mp hch).2).tail
    simp [cull_user_controllers, hy, hz, ih hch2]
  | case4 y rest2 hy ih =>
    intro hch
    have hstep : cull_user_controllers (y :: rest2) =
        y :: cull_user_controllers rest2 := by
      rw [cull_user_controllers.eq_def]
      simp [hy]
    have hy' : isNamed y = false := by simpa using hy
    rw [hstep, ih (List.Chain'.tail hch)]
    simp [hy']

/-- C3: the claim says every `name=`-prefixed controller is removed, even
when two named controllers are adjacent.  The code violates this: with
discovered list `["name=a", "name=b", "cpu"]` the removal of `"name=a"`
shifts `"name=b"` into the slot the loop has already passed, so the culled
list still contains the named controller `"name=b"`. -/
theorem cull_user_controllers_c3_code_behavior :
    cull_user_controllers
        [['n', 'a', 'm', 'e', '=', 'a'], ['n', 'a', 'm', 'e', '=', 'b'],
         ['c', 'p', 'u']] =
      [['n', 'a', 'm', 'e', '=', 'b'], ['c', 'p', 'u']] ∧
    isNamed ['n', 'a', 'm', 'e', '=', 'b'] = true := by
  decide

/-- `strchr(s, ch)` expressed as a split: `some (before, after)` when `ch`
occurs (first occurrence), `none` otherwise. -/
def strchr_split (ch : Char) : CStr → Option (CStr × CStr)
  | [] => none
  | x :: xs =>
    if x = ch then some ([], xs)
    else
      match strchr_split ch xs with
      | none => none
      | some (a, b) => some (x :: a, b)

/-- Split a char list at every occurrence of `ch` (keeping empty pieces);
`strtok_r` then ignores the empty pieces. -/
def split_on_char (ch : Char) : CStr → List CStr
  | [] => [[]]
  | x :: xs =>
    if x = ch then [] :: split_on_char ch xs
    else
      match split_on_char ch xs with
      | [] => [[x]]
      | t :: ts => (x :: t) :: ts

/-- The `strtok_r(slist, ",", …)` loop of `collect_subsytems`
(cgmanager.c:989): the maximal non-empty chunks between commas. -/
def strtok_commas (s : CStr) : List CStr :=
  (split_on_char ',' s).filter (fun t => !t.isEmpty)

/-- One iteration of the `getline` loop of `collect_subsytems`
(cgmanager.c:972-1001): skip empty lines and lines with fewer than two
colons; otherwise tokenize the field between the first and second colon. -/
def parse_cgroup_line (line : CStr) : List CStr :=
  if line.isEmpty then []
  else
    match strchr_split ':' line with
    | none => []
    | some (_, rest) =>
      match strchr_split ':' rest with
      | none => []
      | some (mid, _) => strtok_commas mid

/-- `collect_subsytems` (cgmanager.c:957): memoized discovery.
`selfFile`/`pid1File` are the contents (as lines) of
`/proc/self/cgroup` and `/proc/1/cgroup` (`none` = unreadable);
`subsystems` is the current cached global.  Returns the C boolean result
and the new cache. -/
def collect_subsytems (selfFile pid1File : Option (List CStr))
    (subsystems : Option (List CStr)) : Bool × Option (List CStr) :=
  match subsystems with
  | some subs => (true, some subs)
  | none =>
    match (match selfFile with | some f => some f | none => pid1File) with
    | none => (false, none)
    | some lines =>
      let subs := (lines.map parse_cgroup_line).flatten
      if subs.isEmpty then (false, none) else (true, some subs)

/-- Modelled from the spec: "deduplicated-by-appearance ordered list" —
keep the first occurrence of each name, drop later duplicates.  Used only
to compare the spec's wording against the code's behaviour; the code has
no counterpart of this function. -/
def dedupBy : List CStr → List CStr → List CStr
  | _, [] => []
  | seen, x :: xs =>
    if x ∈ seen then dedupBy seen xs else x :: dedupBy (x :: seen) xs

/-- Modelled from the spec (see `dedupBy`). -/
def dedupByAppearance (l : List CStr) : List CStr := dedupBy [] l

/-- C8 counterexample: on the record `"1:cpu:/"⏎"2:cpu:/a"` the code
returns the flattened list `[cpu, cpu]` with the duplicate retained: the
output is *not* the deduplicated-by-appearance list the claim promises. -/
theorem collect_subsytems_c8_counterexample :
    (collect_subsytems
        (some [['1', ':', 'c', 'p', 'u', ':', '/'],
               ['2', ':', 'c', 'p', 'u', ':', '/', 'a']]) none none).2 =
      some [['c', 'p', 'u'], ['c', 'p', 'u']] ∧
    (collect_subsytems
        (some [['1', ':', 'c', 'p', 'u', ':', '/'],
               ['2', ':', 'c', 'p', 'u', ':', '/', 'a']]) none none).2 ≠
      some (dedupByAppearance [['c', 'p', 'u'], ['c', 'p', 'u']]) := by
  decide

theorem strchr_split_append (ch : Char) :
    ∀ (h t : CStr), ch ∉ h → strchr_split ch (h ++ ch :: t) = some (h, t) := by
  intro h
  induction h with
  | nil => intro t _; simp [strchr_split]
  | cons x xs ih =>
    intro t hni
    have hx : ¬(x = ch) := fun hx => hni (hx ▸ List.mem_cons_self x xs)
    have ihe := ih t (fun hm => hni (List.mem_cons_of_mem x hm))
    simp only [List.cons_append, strchr_split, if_neg hx, List.append_eq, ihe]

/-- C8 (amended: the middle fields are flattened in order of appearance
*with duplicates retained* — the code performs no deduplication):
subsystem discovery (1) is memoized — with a populated cache it returns
true and leaves the cache unchanged; (2) falls back from the current
process's record to process 1's when the former is unreadable; (3) fails
when neither record is readable, and when the record yields zero
controllers; (4) on a readable record it returns the flattening of the
middle comma-separated field of every line, in order; and (5) on a
well-formed line `hier ++ ":" ++ mid ++ ":" ++ rest` the extracted tokens
are exactly the non-empty comma-chunks of `mid`. -/
theorem collect_subsytems_c8_amended :
    (∀ (selfFile pid1File : Option (List CStr)) (subs : List CStr),
      collect_subsytems selfFile pid1File (some subs) = (true, some subs)) ∧
    (∀ lines : List CStr,
      collect_subsytems none (some lines) none =
        collect_subsytems (some lines) none none) ∧
    (collect_subsytems none none none = (false, none)) ∧
    (∀ (lines : List CStr) (p : Option (List CStr)),
      ((lines.map parse_cgroup_line).flatten = [] →
        collect_subsytems (some lines) p none = (false, none)) ∧
      ((lines.map parse_cgroup_line).flatten ≠ [] →
        collect_subsytems (some lines) p none =
          (true, some (lines.map parse_cgroup_line).flatten))) ∧
    (∀ (h mid rest : CStr), ':' ∉ h → ':' ∉ mid →
      parse_cgroup_line (h ++ ':' :: mid ++ ':' :: rest) =
        (split_on_char ',' mid).filter (fun t => !t.isEmpty)) := by
  refine ⟨fun s p subs => rfl, fun lines => rfl, rfl, ?_, ?_⟩
  · intro lines p
    constructor
    · intro hnil
      simp [collect_subsytems, hnil]
    · intro hne
      simp only [collect_subsytems]
      rw [if_neg (by simpa [List.isEmpty_iff] using hne)]
  · intro h mid rest hh hm
    have hne : ((h ++ ':' :: mid ++ ':' :: rest).isEmpty = true) = False := by
      cases h <;> simp
    rw [parse_cgroup_line, if_neg (by simp [hne])]
    rw [show h ++ ':' :: mid ++ ':' :: rest = h ++ ':' :: (mid ++ ':' :: rest) by
      simp]
    simp only [strchr_split_append ':' h (mid ++ ':' :: rest) hh,
      strchr_split_append ':' mid rest hm]
    rfl

/-- Witness for C8 (amended): concrete instantiations of every part —
memoized cache `["cpu"]`, fallback on record `["1:cpu,devices:/"]`,
failure on the empty record, flattening with a duplicate retained, and
token extraction on a concrete well-formed line. -/
theorem collect_subsytems_c8_amended_witness :
    (collect_subsytems none none (some [['c', 'p', 'u']]) =
      (true, some [['c', 'p', 'u']])) ∧
    (collect_subsytems none (some [['1', ':', 'c', 'p', 'u', ':', '/']]) none =
      collect_subsytems (some [['1', ':', 'c', 'p', 'u', ':', '/']]) none none) ∧
    (collect_subsytems none none none = (false, none)) ∧
    (collect_subsytems (some [[':', ':']]) none none = (false, none)) ∧
    (collect_subsytems
        (some [['1', ':', 'c', 'p', 'u', ':', '/'],
               ['2', ':', 'c', 'p', 'u', ':', '/', 'a']]) none none =
      (true, some [['c', 'p', 'u'], ['c', 'p', 'u']])) ∧
    (parse_cgroup_line
        (['1'] ++ ':' :: ['c', 'p', 'u', ',', ',', 'n', 'e', 't'] ++
          ':' :: ['/', 'a']) =
      (split_on_char ',' ['c', 'p', 'u', ',', ',', 'n', 'e', 't']).filter
        (fun t => !t.isEmpty)) := by
  refine ⟨collect_subsytems_c8_amended.1 none none [['c', 'p', 'u']],
    collect_subsytems_c8_amended.2.1 [['1', ':', 'c', 'p', 'u', ':', '/']],
    collect_subsytems_c8_amended.2.2.1,
    (collect_subsytems_c8_amended.2.2.2.1 [[':', ':']] none).1 (by decide),
    ?_, ?_⟩
  · have := (collect_subsytems_c8_amended.2.2.2.1
      [['1', ':', 'c', 'p', 'u', ':', '/'],
       ['2', ':', 'c', 'p', 'u', ':', '/', 'a']] none).2 (by decide)
    rw [this]
    decide
  · exact collect_subsytems_c8_amended.2.2.2.2 ['1']
      ['c', 'p', 'u', ',', ',', 'n', 'e', 't'] ['/', 'a'] (by decide) (by decide)

/-! ### Hierarchy lifecycle: destroy (C6), enter (C7), and the
path-consuming sentinels (C10) -/

/-- `cgm_destroy` (cgmanager.c:457): nothing happens for a NULL handle or
an unpopulated path; otherwise connect and issue a recursive remove of the
stored path for every registered subsystem (errors only logged).  The
function is `void`; its observable effect is the daemon state. -/
def cgm_destroy (connect_ok : Bool) (rOk : Nat → CStr → Bool) (nr : Nat)
    (d : Option CgmData) (s : DState) : DState :=
  match d with
  | none => s
  | some dd =>
    match dd.cgroup_path with
    | none => s
    | some path =>
      if connect_ok then remove_all rOk path (List.range nr) s else s

/-- `lxc_cgmanager_enter` (cgmanager.c:563): one move-pid RPC (relative or
absolute variant per `abs`); `moveOk` is the RPC outcome environment. -/
def lxc_cgmanager_enter (moveOk : Nat → Bool) (ctrl : Nat) (path : CStr)
    (abs : Bool) : Bool :=
  moveOk ctrl

/-- `do_cgm_enter` (cgmanager.c:586): move the pid into every subsystem's
cgroup in registry order, aborting at the first failure.  `st` tracks, per
controller, which cgroup currently holds the pid; the returned list is the
controllers for which a move RPC was attempted, in order. -/
def do_cgm_enter (moveOk : Nat → Bool) (pth : CStr) (abs : Bool) :
    List Nat → (Nat → Option CStr) → Bool × (Nat → Option CStr) × List Nat
  | [], st => (true, st, [])
  | c :: cs, st =>
    if lxc_cgmanager_enter moveOk c pth abs then
      let r := do_cgm_enter moveOk pth abs cs
        (fun x => if x = c then some pth else st x)
      (r.1, r.2.1, c :: r.2.2)
    else (false, st, [c])

/-- `cgm_enter` (cgmanager.c:597): connect first, then bail out on an
invalid handle, else run `do_cgm_enter` with the relative-path variant. -/
def cgm_enter (connect_ok : Bool) (moveOk : Nat → Bool) (nr : Nat)
    (d : Option CgmData) (st : Nat → Option CStr) :
    Bool × (Nat → Option CStr) × List Nat :=
  if connect_ok then
    match d with
    | none => (false, st, [])
    | some dd =>
      match dd.cgroup_path with
      | none => (false, st, [])
      | some path => do_cgm_enter moveOk path false (List.range nr) st
  else (false, st, [])

/-- `cgm_get_cgroup` (cgmanager.c:615). -/
def cgm_get_cgroup (d : Option CgmData) : Option CStr :=
  match d with
  | none => none
  | some dd => dd.cgroup_path

/-- `cgm_get_nrtasks` (cgmanager.c:666): -1 for an invalid handle (before
any connection attempt), -1 on connect or RPC failure, else the task
count of subsystem 0. -/
def cgm_get_nrtasks (connect_ok : Bool) (tasks : Option (List Int))
    (d : Option CgmData) : Int :=
  match d with
  | none => -1
  | some dd =>
    match dd.cgroup_path with
    | none => -1
    | some _ =>
      if connect_ok then
        match tasks with
        | none => -1
        | some pids => (pids.length : Int)
      else -1

/-- `cgm_unfreeze` (cgmanager.c:1047): false for an invalid handle (before
connecting), false on connect failure, else the result of the single
freezer.state=THAWED set RPC (`setOk`). -/
def cgm_unfreeze (connect_ok setOk : Bool) (d : Option CgmData) : Bool :=
  match d with
  | none => false
  | some dd =>
    match dd.cgroup_path with
    | none => false
    | some _ => if connect_ok then setOk else false

/-! ### Lemmas for destroy and enter -/

theorem remove_all_existing_true (path : CStr) :
    ∀ (l : List Nat) (s : DState),
      (remove_all (fun _ _ => true) path l s).existing =
        s.existing.filter
          (fun cp => !(decide (cp.1 ∈ l) && decide (cp.2 = path))) := by
  intro l
  induction l with
  | nil =>
    intro s
    simp [remove_all]
  | cons c cs ih =>
    intro s
    rw [remove_all, ih]
    show (DState.existing ⟨s.existing.filter _, _⟩).filter _ = _
    simp only [List.filter_filter]
    refine List.filter_congr ?_
    intro a _
    by_cases h1 : a.2 = path <;> by_cases h2 : a.1 = c <;>
      by_cases h3 : a.1 ∈ cs <;>
      simp [h1, h2, h3, Prod.ext_iff, List.mem_cons]

/-- C6: destroy is idempotent and best-effort: it issues a recursive
remove of the stored path for every registered subsystem; removing an
already-absent path changes nothing in the daemon (the "did not exist"
outcome is only logged — `cgm_remove_cgroup` and `cgm_destroy` return no
status at all); running destroy again after a destroy leaves the daemon
state it produced unchanged; and destroy after failed setup (unpopulated
path) is a no-op rather than a failure. -/
theorem cgm_destroy_c6 (nr : Nat) (name pat path : CStr) (s : DState) :
    (∀ c, c < nr →
      Event.removeCall c path ∈
        (cgm_destroy true (fun _ _ => true) nr
          (some ⟨name, some path, pat⟩) s).trace) ∧
    ((∀ c : Nat, (c, path) ∉ s.existing) →
      (cgm_destroy true (fun _ _ => true) nr
        (some ⟨name, some path, pat⟩) s).existing = s.existing) ∧
    ((cgm_destroy true (fun _ _ => true) nr (some ⟨name, some path, pat⟩)
        (cgm_destroy true (fun _ _ => true) nr
          (some ⟨name, some path, pat⟩) s)).existing =
      (cgm_destroy true (fun _ _ => true) nr
        (some ⟨name, some path, pat⟩) s).existing) ∧
    (cgm_destroy true (fun _ _ => true) nr (some ⟨name, none, pat⟩) s = s) := by
  refine ⟨?_, ?_, ?_, rfl⟩
  · intro c hc
    show Event.removeCall c path ∈
      (remove_all (fun _ _ => true) path (List.range nr) s).trace
    rw [remove_all_trace]
    exact List.mem_append_right _
      (List.mem_map.mpr ⟨c, List.mem_range.mpr hc, rfl⟩)
  · intro habs
    show (remove_all (fun _ _ => true) path (List.range nr) s).existing = _
    rw [remove_all_existing_true]
    refine List.filter_eq_self.mpr ?_
    intro a ha
    have : a.2 ≠ path := by
      intro h2
      exact habs a.1 (by rw [← h2]; exact ha)
    simp [this]
  · have hd : cgm_destroy true (fun _ _ => true) nr
        (some ⟨name, some path, pat⟩) s =
        remove_all (fun _ _ => true) path (List.range nr) s := rfl
    rw [hd]
    show (remove_all (fun _ _ => true) path (List.range nr)
      (remove_all (fun _ _ => true) path (List.range nr) s)).existing = _
    rw [remove_all_existing_true, remove_all_existing_true, List.filter_filter]
    refine List.filter_congr ?_
    intro a _
    cases hb : (!(decide (a.1 ∈ List.range nr) && decide (a.2 = path))) <;>
      simp [hb]

/-- Witness for C6: two subsystems, path `p`, starting from a daemon state
where the path exists for subsystem 0. -/
theorem cgm_destroy_c6_witness :
    (∀ c, c < 2 →
      Event.removeCall c ['p'] ∈
        (cgm_destroy true (fun _ _ => true) 2
          (some ⟨['c'], some ['p'], ['%', 'n']⟩)
          ⟨[(0, ['p'])], []⟩).trace) ∧
    ((∀ c : Nat, (c, ['p']) ∉ ([] : List (Nat × CStr))) →
      (cgm_destroy true (fun _ _ => true) 2
        (some ⟨['c'], some ['p'], ['%', 'n']⟩)
        ⟨[], []⟩).existing = []) ∧
    ((cgm_destroy true (fun _ _ => true) 2
        (some ⟨['c'], some ['p'], ['%', 'n']⟩)
        (cgm_destroy true (fun _ _ => true) 2
          (some ⟨['c'], some ['p'], ['%', 'n']⟩)
          ⟨[(0, ['p'])], []⟩)).existing =
      (cgm_destroy true (fun _ _ => true) 2
        (some ⟨['c'], some ['p'], ['%', 'n']⟩)
        ⟨[(0, ['p'])], []⟩).existing) ∧
    (cgm_destroy true (fun _ _ => true) 2
      (some ⟨['c'], none, ['%', 'n']⟩) ⟨[(0, ['p'])], []⟩ =
        ⟨[(0, ['p'])], []⟩) :=
  ⟨(cgm_destroy_c6 2 ['c'] ['%', 'n'] ['p'] ⟨[(0, ['p'])], []⟩).1,
   (cgm_destroy_c6 2 ['c'] ['%', 'n'] ['p'] ⟨[], []⟩).2.1,
   (cgm_destroy_c6 2 ['c'] ['%', 'n'] ['p'] ⟨[(0, ['p'])], []⟩).2.2.1,
   (cgm_destroy_c6 2 ['c'] ['%', 'n'] ['p'] ⟨[(0, ['p'])], []⟩).2.2.2⟩

theorem do_cgm_enter_all_ok {moveOk : Nat → Bool} {pth : CStr} {abs : Bool} :
    ∀ (l : List Nat) (st : Nat → Option CStr),
      (∀ c ∈ l, moveOk c = true) →
      do_cgm_enter moveOk pth abs l st =
        (true, fun x => if x ∈ l then some pth else st x, l) := by
  intro l
  induction l with
  | nil =>
    intro st _
    simp [do_cgm_enter]
  | cons c cs ih =>
    intro st hok
    rw [do_cgm_enter, lxc_cgmanager_enter,
      if_pos (hok c (List.mem_cons_self c cs)),
      ih _ (fun c' hc' => hok c' (List.mem_cons_of_mem c hc'))]
    refine Prod.ext rfl (Prod.ext ?_ rfl)
    funext x
    by_cases hxc : x = c <;> by_cases hxcs : x ∈ cs <;>
      simp [hxc, hxcs, List.mem_cons]

theorem do_cgm_enter_fail_at {moveOk : Nat → Bool} {pth : CStr} {abs : Bool}
    {i : Nat} (hi : moveOk i = false) :
    ∀ (l1 l2 : List Nat) (st : Nat → Option CStr),
      (∀ c ∈ l1, moveOk c = true) →
      do_cgm_enter moveOk pth abs (l1 ++ i :: l2) st =
        (false, fun x => if x ∈ l1 then some pth else st x, l1 ++ [i]) := by
  intro l1
  induction l1 with
  | nil =>
    intro l2 st _
    rw [List.nil_append, do_cgm_enter, lxc_cgmanager_enter, if_neg (by simp [hi])]
    refine Prod.ext rfl (Prod.ext ?_ rfl)
    funext x
    simp
  | cons c cs ih =>
    intro l2 st hok
    rw [List.cons_append, do_cgm_enter, lxc_cgmanager_enter,
      if_pos (hok c (List.mem_cons_self c cs)),
      ih l2 _ (fun c' hc' => hok c' (List.mem_cons_of_mem c hc'))]
    refine Prod.ext rfl (Prod.ext ?_ rfl)
    funext x
    by_cases hxc : x = c <;> by_cases hxcs : x ∈ cs <;>
      simp [hxc, hxcs, List.mem_cons]

/-- C7: enter moves the pid into every subsystem's cgroup in registry
order (the attempted-move list is exactly `range nr` on success); the
first per-subsystem failure aborts the whole operation with a false
return, nothing past the failing subsystem is attempted (the attempted
list stops at `i`), and no rollback is performed: subsystems `0 .. i-1`
still hold the pid at the target path while later ones are untouched. -/
theorem cgm_enter_c7 (moveOk : Nat → Bool) (nr : Nat) (name pat path : CStr)
    (st : Nat → Option CStr) :
    ((∀ c, c < nr → moveOk c = true) →
      (cgm_enter true moveOk nr (some ⟨name, some path, pat⟩) st).1 = true ∧
      (cgm_enter true moveOk nr (some ⟨name, some path, pat⟩) st).2.2 =
        List.range nr ∧
      (∀ c, c < nr →
        (cgm_enter true moveOk nr (some ⟨name, some path, pat⟩) st).2.1 c =
          some path)) ∧
    (∀ i, i < nr → (∀ c, c < i → moveOk c = true) → moveOk i = false →
      (cgm_enter true moveOk nr (some ⟨name, some path, pat⟩) st).1 = false ∧
      (cgm_enter true moveOk nr (some ⟨name, some path, pat⟩) st).2.2 =
        List.range (i+1) ∧
      (∀ c, c < i →
        (cgm_enter true moveOk nr (some ⟨name, some path, pat⟩) st).2.1 c =
          some path) ∧
      (∀ c, i ≤ c →
        (cgm_enter true moveOk nr (some ⟨name, some path, pat⟩) st).2.1 c =
          st c)) := by
  constructor
  · intro hok
    have hrun : cgm_enter true moveOk nr (some ⟨name, some path, pat⟩) st =
        (true, fun x => if x ∈ List.range nr then some path else st x,
         List.range nr) := by
      show do_cgm_enter moveOk path false (List.range nr) st = _
      exact do_cgm_enter_all_ok (List.range nr) st
        (fun c hc => hok c (List.mem_range.mp hc))
    rw [hrun]
    exact ⟨rfl, rfl, fun c hc => by simp [List.mem_range.mpr hc]⟩
  · intro i hi hok hbad
    have hsplit : List.range nr =
        List.range i ++ (i :: (List.range (nr - i - 1)).map
          (fun x => i + Nat.succ x)) := by
      have h1 : nr = i + (nr - i) := by omega
      have h2 : nr - i = (nr - i - 1) + 1 := by omega
      conv_lhs => rw [h1, List.range_add]
      rw [h2, List.range_succ_eq_map]
      simp
    have hrun : cgm_enter true moveOk nr (some ⟨name, some path, pat⟩) st =
        (false, fun x => if x ∈ List.range i then some path else st x,
         List.range i ++ [i]) := by
      show do_cgm_enter moveOk path false (List.range nr) st = _
      rw [hsplit]
      exact do_cgm_enter_fail_at hbad (List.range i) _ st
        (fun c hc => hok c (List.mem_range.mp hc))
    rw [hrun]
    refine ⟨rfl, by rw [List.range_succ], ?_, ?_⟩
    · intro c hc
      simp [List.mem_range.mpr hc]
    · intro c hc
      have : c ∉ List.range i := by
        simp [List.mem_range]
        omega
      simp [this]

/-- Witness for C7: two subsystems, the move into subsystem 1 fails; the
pid stays in subsystem 0's cgroup, subsystem 1 is attempted last, and the
whole enter returns false.  The all-success half is instantiated with
every move succeeding. -/
theorem cgm_enter_c7_witness :
    ((cgm_enter true (fun _ => true) 2
        (some ⟨['c'], some ['p'], ['%', 'n']⟩) (fun _ => none)).1 = true ∧
      (cgm_enter true (fun _ => true) 2
        (some ⟨['c'], some ['p'], ['%', 'n']⟩) (fun _ => none)).2.2 =
        List.range 2 ∧
      (∀ c, c < 2 →
        (cgm_enter true (fun _ => true) 2
          (some ⟨['c'], some ['p'], ['%', 'n']⟩) (fun _ => none)).2.1 c =
          some ['p'])) ∧
    ((cgm_enter true (fun c => decide (c = 0)) 2
        (some ⟨['c'], some ['p'], ['%', 'n']⟩) (fun _ => none)).1 = false ∧
      (cgm_enter true (fun c => decide (c = 0)) 2
        (some ⟨['c'], some ['p'], ['%', 'n']⟩) (fun _ => none)).2.2 =
        List.range 2 ∧
      (∀ c, c < 1 →
        (cgm_enter true (fun c => decide (c = 0)) 2
          (some ⟨['c'], some ['p'], ['%', 'n']⟩) (fun _ => none)).2.1 c =
          some ['p']) ∧
      (∀ c, 1 ≤ c →
        (cgm_enter true (fun c => decide (c = 0)) 2
          (some ⟨['c'], some ['p'], ['%', 'n']⟩) (fun _ => none)).2.1 c =
          none)) :=
  ⟨(cgm_enter_c7 (fun _ => true) 2 ['c'] ['%', 'n'] ['p'] (fun _ => none)).1
      (fun c _ => rfl),
   (cgm_enter_c7 (fun c => decide (c = 0)) 2 ['c'] ['%', 'n'] ['p']
      (fun _ => none)).2 1 (by decide) (by decide) (by decide)⟩

/-- C10: for a handle whose `cgroup_path` was never populated, every
path-consuming operation fails with its sentinel and issues no cgroup RPC
for that path: enter returns false with no move attempted and the pid
locations unchanged, get_cgroup returns NULL, nrtasks returns -1,
unfreeze returns false, and destroy returns without issuing any remove —
regardless of the daemon environment. -/
theorem null_path_sentinels_c10 (name pat : CStr) (connect_ok : Bool)
    (moveOk : Nat → Bool) (nr : Nat) (st : Nat → Option CStr)
    (setOk : Bool) (tasks : Option (List Int)) (rOk : Nat → CStr → Bool)
    (s : DState) :
    cgm_enter connect_ok moveOk nr (some ⟨name, none, pat⟩) st =
      (false, st, []) ∧
    cgm_get_cgroup (some ⟨name, none, pat⟩) = none ∧
    cgm_get_nrtasks connect_ok tasks (some ⟨name, none, pat⟩) = -1 ∧
    cgm_unfreeze connect_ok setOk (some ⟨name, none, pat⟩) = false ∧
    cgm_destroy connect_ok rOk nr (some ⟨name, none, pat⟩) s = s := by
  refine ⟨?_, rfl, ?_, ?_, rfl⟩
  · cases connect_ok <;> rfl
  · cases connect_ok <;> rfl
  · cases connect_ok <;> rfl

/-! ### Ownership-transfer protocol: do_chown_cgroup / chown_cgroup (C5)
and cgm_chown (C9) -/

/-- Observable actions of the ownership-transfer path: the chown RPC with
the credential socket, the credential pushes, the `close` calls on the two
socketpair ends, and the chmod RPCs. -/
inductive CEvent where
  | chownScm
  | sendCred (stage : Nat)
  | closeFd (which : Nat)
  | chmod (file : CStr) (mode : Nat)
deriving DecidableEq

/-- Environment for one ownership transfer: outcomes of every fallible
step of `do_chown_cgroup` (cgmanager.c:269) and `chown_cgroup`
(cgmanager.c:372).  `read1/read2/read3` are the byte counts the three
`read` calls return; `byte3` is the status byte when the final read
returns one byte. -/
structure ChownEnv where
  idmap_empty : Bool
  userns_ok : Bool
  socketpair_ok : Bool
  setsockopt1_ok : Bool
  setsockopt0_ok : Bool
  chown_scm_ok : Bool
  select1_ok : Bool
  read1 : Int
  send1_ok : Bool
  select2_ok : Bool
  read2 : Int
  send2_ok : Bool
  select3_ok : Bool
  read3 : Int
  byte3 : Char
  chmod_dir_ok : Bool
  chmod_tasks_ok : Bool
  chmod_procs_ok : Bool

/-- The ordered fallible steps of `do_chown_cgroup` (cgmanager.c:269)
before the final status read, in source order: socketpair, the two
setsockopts, the chown RPC handing over `sv[1]` (the RPC call itself is an
observable event whether or not it fails), then the select/read/send-creds
rounds one and two and the third select.  Each entry is (events emitted by
attempting the step, whether the step succeeded — a failed step is the
C `goto out`). -/
def chownSteps (e : ChownEnv) : List (List CEvent × Bool) :=
  [([], e.socketpair_ok),
   ([], e.setsockopt1_ok),
   ([], e.setsockopt0_ok),
   ([CEvent.chownScm], e.chown_scm_ok),
   ([], e.select1_ok),
   ([], decide (e.read1 = 1)),
   ([CEvent.sendCred 1], e.send1_ok),
   ([], e.select2_ok),
   ([], decide (e.read2 = 1)),
   ([CEvent.sendCred 2], e.send2_ok),
   ([], e.select3_ok)]

/-- Run steps in order: emit each step's events, stop at the first
failure (`goto out`). -/
def runSteps : List (List CEvent × Bool) → List CEvent × Bool
  | [] => ([], true)
  | (ev, ok) :: rest =>
    if ok then
      let r := runSteps rest
      (ev ++ r.1, r.2)
    else (ev, false)

/-- `do_chown_cgroup` (cgmanager.c:269): run the fallible steps; every
exit path falls through the `out:` label closing both socketpair ends,
and the function returns 0 only when no step failed and the final read
returned one byte equal to `'1'`. -/
def do_chown_cgroup (e : ChownEnv) : Int × List CEvent :=
  let r := runSteps (chownSteps e)
  (if r.2 = true ∧ e.read3 = 1 ∧ e.byte3 = '1' then 0 else -1,
   r.1 ++ [CEvent.closeFd 0, CEvent.closeFd 1])

/-- `"tasks"`. -/
def tasksFile : CStr := ['t', 'a', 's', 'k', 's']

/-- `"cgroup.procs"`. -/
def procsFile : CStr := ['c', 'g', 'r', 'o', 'u', 'p', '.', 'p', 'r', 'o',
  'c', 's']

/-- `userns_exec_1(conf, chown_cgroup_wrapper, &data)` (cgmanager.c:385):
run the handshake inside the container's user namespace; `userns_ok =
false` models the exec machinery itself failing before the wrapper runs
(a negative return with no handshake I/O). -/
def userns_run (e : ChownEnv) : Int × List CEvent :=
  if e.userns_ok then do_chown_cgroup e else (-1, [])

/-- `chown_cgroup` (cgmanager.c:372): nothing to do without an id map;
otherwise run the handshake in the privilege-dropped child
(`userns_exec_1` of `chown_cgroup_wrapper`; `userns_ok = false` models
the exec machinery itself failing before the handshake runs), and only
after it reports success issue the three mode-0775 chmod relaxation RPCs
on the path itself, `tasks` and `cgroup.procs`, each a fail point. -/
def chown_cgroup (e : ChownEnv) : Bool × List CEvent :=
  if e.idmap_empty then (true, [])
  else
    if (userns_run e).1 < 0 then (false, (userns_run e).2)
    else if ¬ e.chmod_dir_ok then
      (false, (userns_run e).2 ++ [CEvent.chmod [] 0o775])
    else if ¬ e.chmod_tasks_ok then
      (false, (userns_run e).2 ++
        [CEvent.chmod [] 0o775, CEvent.chmod tasksFile 0o775])
    else if ¬ e.chmod_procs_ok then
      (false, (userns_run e).2 ++
        [CEvent.chmod [] 0o775, CEvent.chmod tasksFile 0o775,
         CEvent.chmod procsFile 0o775])
    else
      (true, (userns_run e).2 ++
        [CEvent.chmod [] 0o775, CEvent.chmod tasksFile 0o775,
         CEvent.chmod procsFile 0o775])

theorem runSteps_snd_false :
    ∀ l : List (List CEvent × Bool), (∃ p ∈ l, p.2 = false) →
      (runSteps l).2 = false := by
  intro l
  induction l with
  | nil => rintro ⟨p, hp, -⟩; exact absurd hp (List.not_mem_nil p)
  | cons q rest ih =>
    rintro ⟨p, hp, hfalse⟩
    rcases q with ⟨ev, ok⟩
    rcases List.mem_cons.mp hp with rfl | hp'
    · have hf : ok = false := hfalse
      rw [runSteps, if_neg (by simp [hf])]
    · rw [runSteps]
      split
      · exact ih ⟨p, hp', hfalse⟩
      · rfl

theorem runSteps_fst_not_mem {x : CEvent} :
    ∀ l : List (List CEvent × Bool), (∀ p ∈ l, x ∉ p.1) →
      x ∉ (runSteps l).1 := by
  intro l
  induction l with
  | nil => intro _; simp [runSteps]
  | cons q rest ih =>
    intro h
    rcases q with ⟨ev, ok⟩
    rw [runSteps]
    split
    · simp only [List.mem_append]
      rintro (hx | hx)
      · exact h (ev, ok) (List.mem_cons_self _ _) hx
      · exact ih (fun p hp => h p (List.mem_cons_of_mem _ hp)) hx
    · exact h (ev, ok) (List.mem_cons_self _ _)

theorem do_chown_cgroup_no_chmod (e : ChownEnv) (f : CStr) (m : Nat) :
    CEvent.chmod f m ∉ (do_chown_cgroup e).2 := by
  show CEvent.chmod f m ∉
    (runSteps (chownSteps e)).1 ++ [CEvent.closeFd 0, CEvent.closeFd 1]
  simp only [List.mem_append]
  rintro (hx | hx)
  · refine runSteps_fst_not_mem (chownSteps e) ?_ hx
    intro p hp
    simp only [chownSteps, List.mem_cons, List.not_mem_nil, or_false] at hp
    rcases hp with rfl | rfl | rfl | rfl | rfl | rfl | rfl | rfl | rfl |
      rfl | rfl
    all_goals simp
  · simp at hx

theorem do_chown_cgroup_closes (e : ChownEnv) :
    CEvent.closeFd 0 ∈ (do_chown_cgroup e).2 ∧
    CEvent.closeFd 1 ∈ (do_chown_cgroup e).2 := by
  constructor <;>
    · show _ ∈ (runSteps (chownSteps e)).1 ++ [CEvent.closeFd 0, CEvent.closeFd 1]
      simp

theorem do_chown_cgroup_result (e : ChownEnv) :
    (do_chown_cgroup e).1 = 0 ∨ (do_chown_cgroup e).1 = -1 := by
  have h : (do_chown_cgroup e).1 =
      if (runSteps (chownSteps e)).2 = true ∧ e.read3 = 1 ∧ e.byte3 = '1'
      then (0 : Int) else -1 := rfl
  rw [h]
  split
  · exact Or.inl rfl
  · exact Or.inr rfl

/-- C5: each of the three select-then-read stages of the ownership
handshake is a separate fail point: if any of them fails (given the
socketpair setup and the chown RPC themselves succeeded), the transfer
returns failure, both socketpair ends are closed before returning, and no
chmod call is in the trace; moreover — for every environment — a chmod
permission-relaxation call can only appear after the handshake
(`do_chown_cgroup`) reported success. -/
theorem chown_cgroup_handshake_c5 (e : ChownEnv)
    (hid : e.idmap_empty = false) (hu : e.userns_ok = true)
    (hsp : e.socketpair_ok = true) (hs1 : e.setsockopt1_ok = true)
    (hs0 : e.setsockopt0_ok = true) (hscm : e.chown_scm_ok = true)
    (hfail :
      (e.select1_ok = false ∨ e.read1 ≠ 1) ∨
      (e.select1_ok = true ∧ e.read1 = 1 ∧ e.send1_ok = true ∧
        (e.select2_ok = false ∨ e.read2 ≠ 1)) ∨
      (e.select1_ok = true ∧ e.read1 = 1 ∧ e.send1_ok = true ∧
       e.select2_ok = true ∧ e.read2 = 1 ∧ e.send2_ok = true ∧
        (e.select3_ok = false ∨ e.read3 ≠ 1))) :
    (chown_cgroup e).1 = false ∧
    CEvent.closeFd 0 ∈ (chown_cgroup e).2 ∧
    CEvent.closeFd 1 ∈ (chown_cgroup e).2 ∧
    (∀ f m, CEvent.chmod f m ∉ (chown_cgroup e).2) ∧
    (∀ e' : ChownEnv, ∀ f m, CEvent.chmod f m ∈ (chown_cgroup e').2 →
      e'.userns_ok = true ∧ (do_chown_cgroup e').1 = 0) := by
  have hres : (do_chown_cgroup e).1 = -1 := by
    have hstep : ∀ p ∈ chownSteps e, p.2 = false →
        (do_chown_cgroup e).1 = -1 := by
      intro p hp hfalse
      have hrs := runSteps_snd_false (chownSteps e) ⟨p, hp, hfalse⟩
      show (if (runSteps (chownSteps e)).2 = true ∧ _ ∧ _ then (0 : Int)
        else -1) = -1
      rw [if_neg (by simp [hrs])]
    rcases hfail with h | h | h
    · rcases h with h | h
      · exact hstep ([], e.select1_ok) (by simp [chownSteps]) h
      · exact hstep ([], decide (e.read1 = 1)) (by simp [chownSteps])
          (decide_eq_false h)
    · obtain ⟨-, -, -, h⟩ := h
      rcases h with h | h
      · exact hstep ([], e.select2_ok) (by simp [chownSteps]) h
      · exact hstep ([], decide (e.read2 = 1)) (by simp [chownSteps])
          (decide_eq_false h)
    · obtain ⟨-, -, -, -, -, -, h⟩ := h
      rcases h with h | h
      · exact hstep ([], e.select3_ok) (by simp [chownSteps]) h
      · show (if (runSteps (chownSteps e)).2 = true ∧ _ ∧ _ then (0 : Int)
          else -1) = -1
        rw [if_neg (by simp [h])]
  have hch : chown_cgroup e = (false, (do_chown_cgroup e).2) := by
    have hr : userns_run e = do_chown_cgroup e := by
      unfold userns_run
      rw [if_pos hu]
    unfold chown_cgroup
    rw [if_neg (by simp [hid]), hr, if_pos (by rw [hres]; decide)]
  refine ⟨by rw [hch], by rw [hch]; exact (do_chown_cgroup_closes e).1,
    by rw [hch]; exact (do_chown_cgroup_closes e).2,
    by rw [hch]; exact fun f m => do_chown_cgroup_no_chmod e f m, ?_⟩
  intro e' f m hmem
  by_cases hid' : e'.idmap_empty = true
  · unfold chown_cgroup at hmem
    rw [if_pos hid'] at hmem
    exact absurd hmem (by simp)
  · by_cases hu' : e'.userns_ok = true
    · refine ⟨hu', ?_⟩
      rcases do_chown_cgroup_result e' with h0 | hm1
      · exact h0
      · exfalso
        have hr : userns_run e' = (-1, (do_chown_cgroup e').2) := by
          unfold userns_run
          rw [if_pos hu']
          exact Prod.ext hm1 rfl
        unfold chown_cgroup at hmem
        rw [if_neg hid', hr,
          if_pos (show ((-1 : Int)) < 0 by decide)] at hmem
        exact do_chown_cgroup_no_chmod e' f m hmem
    · exfalso
      have hr : userns_run e' = (-1, []) := by
        unfold userns_run
        rw [if_neg hu']
      unfold chown_cgroup at hmem
      rw [if_neg hid', hr,
        if_pos (show ((-1 : Int)) < 0 by decide)] at hmem
      exact absurd hmem (by simp)

/-- Witness for C5: a transfer whose second select-then-read stage reads
zero bytes; all conclusions at that concrete environment. -/
theorem chown_cgroup_handshake_c5_witness :
    (chown_cgroup ⟨false, true, true, true, true, true, true, 1, true,
        true, 0, true, true, 1, '1', true, true, true⟩).1 = false ∧
    CEvent.closeFd 0 ∈ (chown_cgroup ⟨false, true, true, true, true, true,
        true, 1, true, true, 0, true, true, 1, '1', true, true, true⟩).2 ∧
    CEvent.closeFd 1 ∈ (chown_cgroup ⟨false, true, true, true, true, true,
        true, 1, true, true, 0, true, true, 1, '1', true, true, true⟩).2 ∧
    (∀ f m, CEvent.chmod f m ∉ (chown_cgroup ⟨false, true, true, true,
        true, true, true, 1, true, true, 0, true, true, 1, '1', true, true,
        true⟩).2) ∧
    (∀ e' : ChownEnv, ∀ f m, CEvent.chmod f m ∈ (chown_cgroup e').2 →
      e'.userns_ok = true ∧ (do_chown_cgroup e').1 = 0) :=
  chown_cgroup_handshake_c5 ⟨false, true, true, true, true, true, true, 1,
      true, true, 0, true, true, 1, '1', true, true, true⟩
    rfl rfl rfl rfl rfl rfl
    (Or.inr (Or.inl ⟨rfl, rfl, rfl, Or.inr (by decide)⟩))

/-- `cgm_chown` (cgmanager.c:1122): false on an invalid handle or failed
connect; otherwise run `chown_cgroup` for every subsystem — a failing
per-subsystem transfer is only logged (WARN) — and return true.  The
returned list records each subsystem's transfer outcome. -/
def cgm_chown (connect_ok : Bool) (nr : Nat) (envs : Nat → ChownEnv)
    (d : Option CgmData) : Bool × List (Nat × Bool) :=
  match d with
  | none => (false, [])
  | some dd =>
    match dd.cgroup_path with
    | none => (false, [])
    | some _ =>
      if connect_ok then
        (true, (List.range nr).map (fun c => (c, (chown_cgroup (envs c)).1)))
      else (false, [])

/-- C9: `cgm_chown` returns true whenever the handle is valid (non-null
with populated path) and the daemon connection opens — for every
environment `envs`, i.e. even when some or all per-subsystem ownership
transfers fail; those failures are recorded but never change the boolean
result. -/
theorem cgm_chown_c9 (nr : Nat) (envs : Nat → ChownEnv)
    (name pat path : CStr) :
    (cgm_chown true nr envs (some ⟨name, some path, pat⟩)).1 = true := rfl

/-! ### Isolated attribute access: the cgm_get parent-side framing (C4) -/

/-- The NUL byte written by `memset`/explicit termination. -/
def NUL : Char := Char.ofNat 0

/-- The parent side of `cgm_get` (cgmanager.c:785) after the length word
has been read from the pipe: `newlen` is the child-reported length,
`data` the bytes actually available on the pipe, `len` the caller's
destination-buffer capacity, `hasbuf` whether `value` is non-NULL.
Returns the `int` result and the final buffer contents (`[]` when the
buffer was never touched).  With no buffer the raw length is returned
as-is; otherwise the buffer is zeroed, a negative length is -1, a zero
length returns 0, and a successful read of `min(newlen, len)` bytes is
followed by truncation (`value[len-1] = 0`, return `len-1`) when
`newlen >= len`, newline-padding (`value[newlen] = '\n'`,
`value[newlen+1] = 0`, return `newlen+1`) when `newlen+1 < len`, and a
bare return of `newlen` in between; a short read is -1. -/
def cgm_get (newlen : Int) (data : CStr) (len : Nat) (hasbuf : Bool) :
    Int × CStr :=
  if len = 0 ∨ hasbuf = false then (newlen, [])
  else
    let value := List.replicate len NUL
    if newlen < 0 then (-1, value)
    else if newlen = 0 then (0, value)
    else
      let readlen : Nat := min newlen.toNat len
      let ret : Nat := min readlen data.length
      let value2 := data.take ret ++ value.drop ret
      if ret ≠ readlen then (-1, value2)
      else if (len : Int) ≤ newlen then
        ((len : Int) - 1, value2.set (len - 1) NUL)
      else if newlen + 1 < (len : Int) then
        (newlen + 1, (value2.set newlen.toNat '\n').set (newlen.toNat + 1) NUL)
      else (newlen, value2)

/-- C4 counterexample: an empty value (`newlen = 0`) into a buffer of
capacity 2.  The claim's padding case applies (`0 + 1 < 2`), so it
predicts return `0 + 1` with a newline appended; the code's explicit
empty-read case returns 0 and leaves the buffer zeroed. -/
theorem cgm_get_c4_counterexample :
    (cgm_get 0 [] 2 true).1 = 0 ∧
    (cgm_get 0 [] 2 true).2 = [NUL, NUL] ∧
    (cgm_get 0 [] 2 true).1 ≠ 0 + 1 := by
  refine ⟨rfl, rfl, by decide⟩

/-- C4 (amended: the newline-padding case additionally requires the value
to be non-empty; an empty value returns 0 with the buffer zeroed):
for a caller-supplied buffer of capacity `len > 0`, (1) the parent reads
at most `min(child-reported length, len)` bytes — the result depends only
on that prefix of the pipe data; (2) if the value's length is at least
`len` it is truncated with a terminating NUL at position `len-1`, no
newline appended, and `len-1` returned; (3) if the value is non-empty and
its length plus one is strictly below `len`, a single trailing newline is
appended followed by a NUL and `length+1` is returned; (4) a negative
reported length yields -1; (5) a short read yields -1; and (6) an empty
value returns 0 with the buffer zeroed. -/
theorem cgm_get_framing_c4 (V : CStr) (len : Nat) (hlen : 0 < len) :
    (∀ (newlen : Int) (d1 d2 : CStr), 0 ≤ newlen →
      d1.take (min newlen.toNat len) = d2.take (min newlen.toNat len) →
      cgm_get newlen d1 len true = cgm_get newlen d2 len true) ∧
    (len ≤ V.length →
      cgm_get (V.length : Int) V len true =
        ((len : Int) - 1, V.take (len - 1) ++ [NUL])) ∧
    (V ≠ [] → V.length + 1 < len →
      cgm_get (V.length : Int) V len true =
        ((V.length : Int) + 1,
         V ++ '\n' :: NUL :: List.replicate (len - V.length - 2) NUL)) ∧
    (∀ newlen : Int, newlen < 0 → (cgm_get newlen V len true).1 = -1) ∧
    (∀ newlen : Int, 0 < newlen → V.length < min newlen.toNat len →
      (cgm_get newlen V len true).1 = -1) ∧
    (cgm_get 0 V len true = (0, List.replicate len NUL)) := by
  have hbuf : ¬(len = 0 ∨ true = false) := by simp [hlen.ne']
  refine ⟨?_, ?_, ?_, ?_, ?_, ?_⟩
  · -- (1) only the first min(newlen, len) pipe bytes matter
    intro newlen d1 d2 hpos htake
    by_cases hneg : newlen < 0
    · omega
    by_cases hzero : newlen = 0
    · subst hzero
      rfl
    unfold cgm_get
    rw [if_neg hbuf, if_neg hneg, if_neg hzero, if_neg hbuf, if_neg hneg,
      if_neg hzero]
    have hlt : (d1.take (min newlen.toNat len)).length =
        (d2.take (min newlen.toNat len)).length := by rw [htake]
    simp only [List.length_take] at hlt
    have hret : min (min newlen.toNat len) d1.length =
        min (min newlen.toNat len) d2.length := by
      omega
    have hdata : d1.take (min (min newlen.toNat len) d1.length) =
        d2.take (min (min newlen.toNat len) d2.length) := by
      have h1 : d1.take (min (min newlen.toNat len) d1.length) =
          (d1.take (min newlen.toNat len)).take
            (min (min newlen.toNat len) d1.length) := by
        rw [List.take_take]
        congr 1
        omega
      have h2 : d2.take (min (min newlen.toNat len) d2.length) =
          (d2.take (min newlen.toNat len)).take
            (min (min newlen.toNat len) d2.length) := by
        rw [List.take_take]
        congr 1
        omega
      rw [h1, h2, htake, hret]
    rw [hret] at hdata
    simp only [hret, hdata]
  · -- (2) truncation when the value fills the buffer
    intro hle
    have hpos : 0 < V.length := Nat.lt_of_lt_of_le hlen hle
    unfold cgm_get
    rw [if_neg hbuf, if_neg (by omega : ¬ ((V.length : Int) < 0)),
      if_neg (by exact_mod_cast hpos.ne' : ¬ ((V.length : Int) = 0))]
    have htn : ((V.length : Int)).toNat = V.length := rfl
    have hreadlen : min ((V.length : Int)).toNat len = len := by
      rw [htn]
      omega
    have hret : min (min ((V.length : Int)).toNat len) V.length = len := by
      rw [hreadlen]
      omega
    rw [if_neg (by rw [hret, hreadlen]; exact fun h => h rfl)]
    rw [if_pos (by exact_mod_cast hle)]
    have hval : V.take (min (min ((V.length : Int)).toNat len) V.length) ++
        (List.replicate len NUL).drop
          (min (min ((V.length : Int)).toNat len) V.length) = V.take len := by
      rw [hret, List.drop_replicate, Nat.sub_self]
      simp
    rw [hval]
    have hlt : len - 1 < (V.take len).length := by
      rw [List.length_take]
      omega
    rw [List.set_eq_take_append_cons_drop, if_pos hlt]
    have h1 : (V.take len).take (len - 1) = V.take (len - 1) := by
      rw [List.take_take]
      congr 1
      omega
    have h2 : (V.take len).drop (len - 1 + 1) = [] := by
      refine List.drop_eq_nil_of_le ?_
      rw [List.length_take]
      omega
    rw [h1, h2]
  · -- (3) newline padding for a non-empty value with room to spare
    intro hne hroom
    have hpos : 0 < V.length := List.length_pos.mpr hne
    unfold cgm_get
    rw [if_neg hbuf, if_neg (by omega : ¬ ((V.length : Int) < 0)),
      if_neg (by exact_mod_cast hpos.ne' : ¬ ((V.length : Int) = 0))]
    have hreadlen : min ((V.length : Int)).toNat len = V.length := by
      show min V.length len = V.length
      omega
    have hret : min (min ((V.length : Int)).toNat len) V.length = V.length := by
      rw [hreadlen]
      omega
    rw [if_neg (by rw [hret, hreadlen]; exact fun h => h rfl)]
    rw [if_neg (by
      rw [Int.not_le]
      exact_mod_cast Nat.lt_of_succ_lt hroom)]
    rw [if_pos (by exact_mod_cast hroom)]
    have hval : V.take (min (min ((V.length : Int)).toNat len) V.length) ++
        (List.replicate len NUL).drop
          (min (min ((V.length : Int)).toNat len) V.length) =
        V ++ List.replicate (len - V.length) NUL := by
      rw [hret, List.take_length, List.drop_replicate]
    rw [hval]
    have htn : ((V.length : Int)).toNat = V.length := rfl
    rw [htn]
    have hset1 : (V ++ List.replicate (len - V.length) NUL).set V.length '\n' =
        V ++ '\n' :: List.replicate (len - V.length - 1) NUL := by
      rw [List.set_append, if_neg (by omega), Nat.sub_self]
      congr 1
      rw [show len - V.length = (len - V.length - 1) + 1 by omega]
      rfl
    rw [hset1]
    have hset2 : (V ++ '\n' :: List.replicate (len - V.length - 1) NUL).set
        (V.length + 1) NUL =
        V ++ '\n' :: NUL :: List.replicate (len - V.length - 2) NUL := by
      rw [List.set_append, if_neg (by omega),
        show V.length + 1 - V.length = 1 by omega]
      congr 2
      rw [show len - V.length - 1 = (len - V.length - 2) + 1 by omega]
      rfl
    rw [hset2]
  · -- (4) negative reported length
    intro newlen hneg
    unfold cgm_get
    rw [if_neg hbuf, if_pos hneg]
  · -- (5) short read
    intro newlen hpos hshort
    unfold cgm_get
    rw [if_neg hbuf, if_neg (by omega), if_neg (by omega)]
    rw [if_pos (by
      rw [Nat.min_eq_right (Nat.le_of_lt hshort)]
      omega)]
  · -- (6) empty value
    unfold cgm_get
    rw [if_neg hbuf]
    rfl

/-- Witness for C4 (amended): value `ab` against capacities 2 (exact
truncation) and 5 (newline padding), plus the read-prefix, negative,
short-read and empty cases at concrete inputs. -/
theorem cgm_get_framing_c4_witness :
    (cgm_get 7 ['a', 'b', 'x'] 2 true = cgm_get 7 ['a', 'b', 'y'] 2 true) ∧
    (cgm_get 2 ['a', 'b'] 2 true = ((2 : Int) - 1, ['a'] ++ [NUL])) ∧
    (cgm_get 2 ['a', 'b'] 5 true =
      ((2 : Int) + 1, ['a', 'b'] ++ '\n' :: NUL :: List.replicate 1 NUL)) ∧
    ((cgm_get (-3) ['a', 'b'] 2 true).1 = -1) ∧
    ((cgm_get 7 ['a', 'b'] 5 true).1 = -1) ∧
    (cgm_get 0 ['a', 'b'] 2 true = (0, List.replicate 2 NUL)) :=
  ⟨(cgm_get_framing_c4 [] 2 (by decide)).1 7 ['a', 'b', 'x'] ['a', 'b', 'y']
      (by decide) (by decide),
   (cgm_get_framing_c4 ['a', 'b'] 2 (by decide)).2.1 (by decide),
   (cgm_get_framing_c4 ['a', 'b'] 5 (by decide)).2.2.1 (by decide) (by decide),
   (cgm_get_framing_c4 ['a', 'b'] 2 (by decide)).2.2.2.1 (-3) (by decide),
   (cgm_get_framing_c4 ['a', 'b'] 5 (by decide)).2.2.2.2.1 7 (by decide)
      (by decide),
   (cgm_get_framing_c4 ['a', 'b'] 2 (by decide)).2.2.2.2.2⟩

end Cgmanager
